import Mathlib

set_option maxRecDepth 100000

/-!
# Verification of the CreatorVault vanity-address mining tools

Shallow embedding of the Rust sources under `src/` (create2-miner,
vanity-miner, vanity-gen, vanity-rust, and the archived WLFI miner),
together with theorems settling the frozen claims about them.

Bytes are modelled as `Nat` (with explicit `% 256` / `% 2 ^ 64` where the
Rust code relies on fixed-width arithmetic), byte strings as `List Nat`,
and Rust strings as `List Char`.
-/

/-! ## Keccak-256 (semantics of the `tiny_keccak` / `sha3` library calls)

A faithful executable Keccak-256 (legacy `0x01` padding, rate 136 bytes,
24 rounds of Keccak-f[1600]) over `Nat` lanes masked to 64 bits.
The state is a list of 25 lanes; lane (x, y) sits at index `x + 5 * y`. -/

def rotl64 (x k : Nat) : Nat :=
  ((x <<< (k % 64)) ||| (x >>> (64 - k % 64))) % (2 ^ 64)

def comp64 (x : Nat) : Nat :=
  x ^^^ (2 ^ 64 - 1)

/-- The 24 Keccak-f[1600] round constants. -/
def keccakRC : List Nat :=
  [0x0000000000000001, 0x0000000000008082, 0x800000000000808a, 0x8000000080008000,
   0x000000000000808b, 0x0000000080000001, 0x8000000080008081, 0x8000000000008009,
   0x000000000000008a, 0x0000000000000088, 0x0000000080008009, 0x000000008000000a,
   0x000000008000808b, 0x800000000000008b, 0x8000000000008089, 0x8000000000008003,
   0x8000000000008002, 0x8000000000000080, 0x000000000000800a, 0x800000008000000a,
   0x8000000080008081, 0x8000000000008080, 0x0000000080000001, 0x8000000080008008]

/-- Rho rotation offsets, indexed by `x + 5 * y`, generated by the standard
recurrence: starting from lane (1, 0), step `t` assigns offset
`(t+1)(t+2)/2 mod 64` and moves to `(y, 2x+3y mod 5)`; lane (0, 0) keeps 0. -/
def rhoOffsets : List Nat :=
  ((List.range 24).foldl
    (fun p t =>
      let x := p.1.1
      let y := p.1.2
      ((y, (2 * x + 3 * y) % 5), p.2.set (x + 5 * y) ((t + 1) * (t + 2) / 2 % 64)))
    ((1, 0), List.replicate 25 0)).2

/-- One Keccak-f round: theta, rho, pi, chi, iota. -/
def keccakRound (rc : Nat) (st : List Nat) : List Nat :=
  let A := fun x y => st.getD (x + 5 * y) 0
  let C := fun x => (((A x 0 ^^^ A x 1) ^^^ A x 2) ^^^ A x 3) ^^^ A x 4
  let D := fun x => C ((x + 4) % 5) ^^^ rotl64 (C ((x + 1) % 5)) 1
  let A1 := fun x y => A x y ^^^ D x
  let B := fun x y =>
    rotl64 (A1 ((x + 3 * y) % 5) x) (rhoOffsets.getD ((x + 3 * y) % 5 + 5 * x) 0)
  let A2 := fun x y => B x y ^^^ (comp64 (B ((x + 1) % 5) y) &&& B ((x + 2) % 5) y)
  (List.range 25).map fun i =>
    let x := i % 5
    let y := i / 5
    if i = 0 then A2 0 0 ^^^ rc else A2 x y

def keccakF (st : List Nat) : List Nat :=
  keccakRC.foldl (fun s rc => keccakRound rc s) st

/-- Legacy Keccak multi-rate padding with domain byte `0x01` (rate 136). -/
def keccakPad (msg : List Nat) : List Nat :=
  let padLen := 136 - msg.length % 136
  if padLen = 1 then msg ++ [0x81]
  else msg ++ [0x01] ++ List.replicate (padLen - 2) 0 ++ [0x80]

/-- Interpret up to 8 bytes as a little-endian 64-bit lane. -/
def bytesToLane (bs : List Nat) : Nat :=
  bs.foldr (fun b acc => acc * 256 + b) 0

def absorbBlock (st block : List Nat) : List Nat :=
  keccakF ((List.range 25).map fun i =>
    if i < 17 then st.getD i 0 ^^^ bytesToLane ((block.drop (8 * i)).take 8)
    else st.getD i 0)

def absorbBlocks : Nat → List Nat → List Nat → List Nat
  | 0, st, _ => st
  | fuel + 1, st, data =>
    if data.length = 0 then st
    else absorbBlocks fuel (absorbBlock st (data.take 136)) (data.drop 136)

def absorbAll (st data : List Nat) : List Nat :=
  absorbBlocks data.length st data

/-- Serialize a 64-bit lane to 8 little-endian bytes. -/
def laneToBytes (x : Nat) : List Nat :=
  [x % 256, x / 2 ^ 8 % 256, x / 2 ^ 16 % 256, x / 2 ^ 24 % 256,
   x / 2 ^ 32 % 256, x / 2 ^ 40 % 256, x / 2 ^ 48 % 256, x / 2 ^ 56 % 256]

/-- Keccak-256 of a byte string: absorb the padded message, squeeze 32 bytes. -/
def keccakHash (msg : List Nat) : List Nat :=
  let st := absorbAll (List.replicate 25 0) (keccakPad msg)
  laneToBytes (st.getD 0 0) ++ laneToBytes (st.getD 1 0) ++
    laneToBytes (st.getD 2 0) ++ laneToBytes (st.getD 3 0)

/-! ## The incremental hasher interface used by the Rust sources

`tiny_keccak`'s (and `sha3`'s) incremental interface: `update` absorbs more
input, `finalize` produces the digest of everything absorbed so far. -/

structure KeccakHasher where
  buf : List Nat

/-- `Keccak::v256()` / `Keccak256::new()`: a fresh hasher. -/
def KeccakHasher.v256 : KeccakHasher := ⟨[]⟩

def KeccakHasher.update (h : KeccakHasher) (d : List Nat) : KeccakHasher :=
  ⟨h.buf ++ d⟩

def KeccakHasher.finalize (h : KeccakHasher) : List Nat :=
  keccakHash h.buf


/-! ## Hex strings and byte-level helpers shared by the tools -/

/-- Lowercase hex digit for a nibble: index `n` of the `hex` crate's alphabet
"0123456789abcdef" (codepoints 48-57 then 87+n for 97-102). -/
def hexDigit (n : Nat) : Char :=
  if n < 10 then Char.ofNat (48 + n) else Char.ofNat (87 + n)

/-- Models `hex::encode`: two lowercase hex characters per byte. -/
def hexEncode : List Nat → List Char
  | [] => []
  | b :: rest => hexDigit (b / 16) :: hexDigit (b % 16) :: hexEncode rest

/-- Models `str::to_lowercase` on the ASCII strings used here. -/
def toLowerStr (s : List Char) : List Char :=
  s.map Char.toLower

/-- Value of one hex character, if valid (as in `hex::decode`); the three
codepoint ranges are 0-9, a-f, A-F. -/
def hexDigitVal (c : Char) : Option Nat :=
  let v := c.toNat
  if 48 ≤ v ∧ v ≤ 57 then some (v - 48)
  else if 97 ≤ v ∧ v ≤ 102 then some (v - 87)
  else if 65 ≤ v ∧ v ≤ 70 then some (v - 55)
  else none

/-- Models `hex::decode`: pairs of hex characters to bytes; fails on an odd
length or an invalid character. -/
def hexDecodeChars : List Char → Option (List Nat)
  | [] => some []
  | [_] => none
  | c1 :: c2 :: rest => do
    let hi ← hexDigitVal c1
    let lo ← hexDigitVal c2
    let tail ← hexDecodeChars rest
    pure ((16 * hi + lo) :: tail)

/-- Models `s.strip_prefix("0x").unwrap_or(s)` (vanity-gen's strip_0x and the
equivalent line of create2-miner's hex_to_bytes). -/
def strip_0x (s : List Char) : List Char :=
  match s with
  | '0' :: 'x' :: rest => rest
  | _ => s

/-- Models create2-miner's hex_to_bytes (strip the 0x tag, then decode; the
`expect` panic is out of scope for the valid constants this is applied to). -/
def hex_to_bytes (s : String) : List Nat :=
  (hexDecodeChars (strip_0x s.data)).getD []

/-- Models `u64::to_be_bytes`: the 8 big-endian bytes of a 64-bit value. -/
def u64ToBeBytes (n : Nat) : List Nat :=
  [n / 2 ^ 56 % 256, n / 2 ^ 48 % 256, n / 2 ^ 40 % 256, n / 2 ^ 32 % 256,
   n / 2 ^ 24 % 256, n / 2 ^ 16 % 256, n / 2 ^ 8 % 256, n % 256]

/-- Big-endian value of a byte string (used to state that `u64ToBeBytes` really
is the big-endian encoding). -/
def beBytesToNat (bs : List Nat) : Nat :=
  bs.foldl (fun acc b => acc * 256 + b) 0

/-- Models the candidate generator shared by the counter-based miners:
`let mut salt = [0u8; 32]; salt[24..].copy_from_slice(&nonce.to_be_bytes());`. -/
def nonceSalt (nonce : Nat) : List Nat :=
  (List.replicate 32 0).take 24 ++ u64ToBeBytes nonce

/-- Sequential semantics of rayon's `find_map_any` over a finite iterator:
the first `some` produced, `none` once the iterator is exhausted. -/
def find_map_any {α : Type} (iter : List Nat) (f : Nat → Option α) : Option α :=
  iter.findSome? f

/-- The progress-reporter loop shared by create2-miner, vanity-miner and
vanity-gen: each iteration sleeps one interval, then breaks if FoundFlag reads
true, else reports and continues.  `reporter_loop_running found k` says the
loop is still running after its first `k` iterations, given the value
`found i` that iteration `i` reads from the FoundFlag. -/
def reporter_loop_running (found : Nat → Bool) : Nat → Bool
  | 0 => true
  | k + 1 => reporter_loop_running found k && !(found k)

/-! ## create2-miner (`src/create2-miner/src/main.rs`) -/

namespace Create2Miner

/-- The CREATE2_FACTORY constant. -/
def CREATE2_FACTORY : String := "0x4e59b44847b379578588920cA78FbF26c0B4956C"

/-- The INIT_CODE_HASH constant. -/
def INIT_CODE_HASH : String := "0x36b22c74af57426b6ff9d510eec2b7793aee4ebd90a5c763f032f0561e525309"

/-- The TARGET_PREFIX constant, `&[0x47]`. -/
def TARGET_PFX : List Nat := [0x47]

/-- Models `fn compute_create2_address(factory, salt, init_code_hash)`:
incremental keccak over 0xff, factory, salt, init hash; address is
`output[12..]` of the 32-byte digest. -/
def compute_create2_address (factory : List Nat) (salt : List Nat)
    (init_code_hash : List Nat) : List Nat :=
  let hasher := KeccakHasher.v256
  let hasher := hasher.update [0xff]
  let hasher := hasher.update factory
  let hasher := hasher.update salt
  let hasher := hasher.update init_code_hash
  let output := hasher.finalize
  output.drop 12

/-- Models `fn matches_prefix(address, prefix) = address.starts_with(prefix)`. -/
def matches_pfx (address pat : List Nat) : Bool :=
  pat.isPrefixOf address

def factoryBytes : List Nat := hex_to_bytes CREATE2_FACTORY

def initCodeHashBytes : List Nat := hex_to_bytes INIT_CODE_HASH

/-- One iteration of the mining closure in `main`: build the salt from the
nonce, derive the address, return it when the target pattern matches. -/
def try_nonce (nonce : Nat) : Option (List Nat × List Nat × Nat) :=
  let salt := nonceSalt nonce
  let address := compute_create2_address factoryBytes salt initCodeHashBytes
  if matches_pfx address TARGET_PFX then some (salt, address, nonce) else none

/-- Sequential semantics of `(0u64..).par_bridge().find_map_any(...)` in
`main`: the deterministic counter strategy over the whole u64 keyspace. -/
def search : Option (List Nat × List Nat × Nat) :=
  find_map_any (List.range (2 ^ 64)) try_nonce

end Create2Miner

/-! ## vanity-miner (`src/vanity-miner/src/main.rs`) -/

namespace VanityMiner

/-- Models `fn keccak256(data)`. -/
def keccak256 (data : List Nat) : List Nat :=
  let hasher := KeccakHasher.v256
  let hasher := hasher.update data
  hasher.finalize

/-- Models `fn compute_create2_address`: the input is assembled in a `Vec`
(0xff, factory, salt, init hash), hashed once; address is `hash[12..32]`. -/
def compute_create2_address (factory salt init_code_hash : List Nat) : List Nat :=
  let data : List Nat := []
  let data := data ++ [0xff]
  let data := data ++ factory
  let data := data ++ salt
  let data := data ++ init_code_hash
  let hash := keccak256 data
  (hash.drop 12).take 20

/-- The inline pattern test in `main` for target `0x47...0ea91e`:
`address[0] == 0x47 && address[17] == 0x0e && address[18] == 0xa9 &&
address[19] == 0x1e`. -/
def eagle_check (address : List Nat) : Bool :=
  (address.getD 0 0 == 0x47) && (address.getD 17 0 == 0x0e) &&
    (address.getD 18 0 == 0xa9) && (address.getD 19 0 == 0x1e)

end VanityMiner

/-! ## vanity-gen (`src/vanity-gen/src/main.rs`) -/

namespace VanityGen

/-- Models `fn calculate_create2_address(factory, salt, init_code_hash)`. -/
def calculate_create2_address (factory salt init_code_hash : List Nat) : List Nat :=
  let hasher := KeccakHasher.v256
  let hasher := hasher.update [0xff]
  let hasher := hasher.update factory
  let hasher := hasher.update salt
  let hasher := hasher.update init_code_hash
  let hash := hasher.finalize
  (hash.drop 12).take 20

/-- Models `fn matches_pattern(address, prefix, suffix)`: lowercase-hex encode
the address, then `starts_with` the lowercased prefix string and `ends_with`
the lowercased suffix string. -/
def matches_pattern (address : List Nat) (pfx sfx : List Char) : Bool :=
  let addr_hex := hexEncode address
  (toLowerStr pfx).isPrefixOf addr_hex && (toLowerStr sfx).isSuffixOf addr_hex

/-- The counter visited by worker `thread_id` at loop iteration `k` in `main`:
`salt_value` starts at `thread_id as u64 * 1_000_000` and increments by 1. -/
def worker_counter (thread_id k : Nat) : Nat :=
  (thread_id * 1000000 + k) % 2 ^ 64

/-- Models the config-parsing section of `main` (lines 60-102): decode the
factory (naming it on error), check its length, then the init code hash
likewise; the prefix/suffix arguments are not inspected here. -/
def parse_config (factoryArg initHashArg : List Char) :
    Except String (List Nat × List Nat) :=
  let factory_hex := strip_0x factoryArg
  let init_hash_hex := strip_0x initHashArg
  match hexDecodeChars factory_hex with
  | none => .error "Invalid factory address"
  | some fbytes =>
    if fbytes.length = 20 then
      match hexDecodeChars init_hash_hex with
      | none => .error "Invalid init code hash"
      | some hbytes =>
        if hbytes.length = 32 then .ok (fbytes, hbytes)
        else .error "Init code hash must be 32 bytes"
    else .error "Factory must be 20 bytes"

/-- The search phase of `main` (reached only after parsing succeeds), with the
per-worker infinite loop truncated to `fuel` iterations of worker 0's counter
sequence so that the model is total. -/
def search_bounded (factory ich : List Nat) (pfx sfx : List Char) (fuel : Nat) :
    Option (List Nat × List Nat) :=
  find_map_any (List.range fuel) fun k =>
    let salt := nonceSalt (worker_counter 0 k)
    let address := calculate_create2_address factory salt ich
    if matches_pattern address pfx sfx then some (salt, address) else none

/-- `main` as config-then-search: a parse failure aborts (`expect` panics)
before the worker pool ever runs; otherwise the search runs with the parsed
configuration and the unvalidated pattern strings. -/
def run (factoryArg initHashArg pfx sfx : List Char) (fuel : Nat) :
    Except String (Option (List Nat × List Nat)) :=
  match parse_config factoryArg initHashArg with
  | .error e => .error e
  | .ok (factory, ich) => .ok (search_bounded factory ich pfx sfx fuel)

end VanityGen

/-! ## vanity-rust (`src/vanity-rust/src/main.rs`) -/

namespace VanityRust

/-- Models `fn create2_address(factory, salt, init_code_hash)`. -/
def create2_address (factory salt init_code_hash : List Nat) : List Nat :=
  let hasher := KeccakHasher.v256
  let hasher := hasher.update [0xff]
  let hasher := hasher.update factory
  let hasher := hasher.update salt
  let hasher := hasher.update init_code_hash
  let hash := hasher.finalize
  (hash.drop 12).take 20

def factoryBytes : List Nat := hex_to_bytes "695d6B3628B4701E7eAfC0bc511CbAF23f6003eE"

def initCodeHashBytes : List Nat := hex_to_bytes "337569964cd84769a1beb4447397e394ef864c9a76ed0b2be6ce482468a9d45b"

/-- The `prefix` vector in `main`: `vec![0x47]`. -/
def pfxBytes : List Nat := [0x47]

/-- The `suffix` vector in `main`: `vec![0xea, 0x91, 0xe]` (last 2.5 bytes). -/
def sfxBytes : List Nat := [0xea, 0x91, 0xe]

/-- The nibble-aligned suffix test in `main` for `...ea91e`:
`(address[17] & 0x0f) == 0x0e && address[18] == 0xa9 && address[19] == 0x1e`. -/
def suffix_check (address : List Nat) : Bool :=
  (address.getD 17 0 &&& 0x0f == 0x0e) && (address.getD 18 0 == 0xa9) &&
    (address.getD 19 0 == 0x1e)

/-- The full pattern test in `main`: first reject unless
`address[0] == prefix[0]`, then apply the nibble-aligned suffix test. -/
def pattern_check (address : List Nat) : Bool :=
  (address.getD 0 0 == pfxBytes.getD 0 0) && suffix_check address

/-- One iteration of the sampling closure in `main`, with the thread-local
RNG's output for this iteration passed in as `salt`. -/
def try_sample (salt : List Nat) : Option (List Nat × List Nat) :=
  let address := create2_address factoryBytes salt initCodeHashBytes
  if pattern_check address then some (salt, address) else none

/-- Sequential semantics of `(0..1_000_000_000u64).into_par_iter()
.find_map_any(...)` in `main`: the random-sampling strategy, drawing salt
`rng i` at iteration `i`, over a budget of 10^9 iterations. -/
def search (rng : Nat → List Nat) : Option (List Nat × List Nat) :=
  find_map_any (List.range 1000000000) fun i => try_sample (rng i)

end VanityRust

/-! ## Archived WLFI miner
(`src/archive/vanity-tools/create2-miner-wlfi/src/main.rs`) -/

namespace Wlfi

/-- The FACTORY constant (via the `hex!` literal macro). -/
def FACTORY : List Nat := hex_to_bytes "4e59b44847b379578588920cA78FbF26c0B4956C"

/-- The INIT_CODE_HASH constant. -/
def INIT_CODE_HASH : List Nat :=
  hex_to_bytes "3fa5882f6f78e2c24e62f625902b7218c06f2efb09e176b4b6aedceab7cc8608"

/-- Models `fn compute_create2_address(salt: u64)`: hashes 0xff, the factory,
24 zero padding bytes, the 8 big-endian salt bytes and the init code hash;
address is `hash[12..32]`. -/
def compute_create2_address (salt : Nat) : List Nat :=
  let hasher := KeccakHasher.v256
  let hasher := hasher.update [0xff]
  let hasher := hasher.update FACTORY
  let hasher := hasher.update (List.replicate 24 0)
  let hasher := hasher.update (u64ToBeBytes salt)
  let hasher := hasher.update INIT_CODE_HASH
  let hash := hasher.finalize
  (hash.drop 12).take 20

/-- The WLFI progress-updater loop (`main`, lines 58-73): each iteration
sleeps, reads AttemptCounter and reports — it never consults FoundFlag and
never breaks.  `reporter_running found k`: still running after `k`
iterations. -/
def reporter_running (found : Nat → Bool) : Nat → Bool
  | 0 => true
  | k + 1 => reporter_running found k

end Wlfi

/-! ## Helper lemmas -/

theorem keccakHash_length (msg : List Nat) : (keccakHash msg).length = 32 := by
  simp [keccakHash, laneToBytes]

theorem findSome?_eq_none_forall {α : Type} {f : Nat → Option α} {l : List Nat} :
    l.findSome? f = none ↔ ∀ x ∈ l, f x = none :=
  List.findSome?_eq_none_iff

/-! ## C1: the CREATE2 address-derivation formula -/

/-- C1: for every 20-byte factory, 32-byte salt and 32-byte init-code hash,
each of the three address-derivation functions (create2-miner's and
vanity-miner's `compute_create2_address`, vanity-gen's
`calculate_create2_address`) returns exactly the last 20 bytes (offsets
12..32) of the 32-byte Keccak-256 digest of the 85-byte concatenation
0xFF ‖ factory ‖ salt ‖ initCodeHash, in that order. -/
theorem create2_address_formula (factory salt ich : List Nat)
    (hf : factory.length = 20) (hs : salt.length = 32) (hi : ich.length = 32) :
    (0xff :: (factory ++ salt ++ ich)).length = 85
    ∧ (keccakHash (0xff :: (factory ++ salt ++ ich))).length = 32
    ∧ Create2Miner.compute_create2_address factory salt ich
        = (keccakHash (0xff :: (factory ++ salt ++ ich))).drop 12
    ∧ VanityMiner.compute_create2_address factory salt ich
        = (keccakHash (0xff :: (factory ++ salt ++ ich))).drop 12
    ∧ VanityGen.calculate_create2_address factory salt ich
        = (keccakHash (0xff :: (factory ++ salt ++ ich))).drop 12
    ∧ (Create2Miner.compute_create2_address factory salt ich).length = 20 := by
  have hlen : (keccakHash (0xff :: (factory ++ salt ++ ich))).length = 32 :=
    keccakHash_length _
  have hdrop : ((keccakHash (0xff :: (factory ++ salt ++ ich))).drop 12).length = 20 := by
    simp [keccakHash_length]
  have htake : ((keccakHash (0xff :: (factory ++ salt ++ ich))).drop 12).take 20
      = (keccakHash (0xff :: (factory ++ salt ++ ich))).drop 12 :=
    List.take_of_length_le (by simp [keccakHash_length])
  refine ⟨by simp [hf, hs, hi], hlen, ?_, ?_, ?_, ?_⟩
  · simp [Create2Miner.compute_create2_address, KeccakHasher.v256,
      KeccakHasher.update, KeccakHasher.finalize, List.append_assoc]
  · simpa [VanityMiner.compute_create2_address, VanityMiner.keccak256,
      KeccakHasher.v256, KeccakHasher.update, KeccakHasher.finalize,
      List.append_assoc] using htake
  · simpa [VanityGen.calculate_create2_address, KeccakHasher.v256,
      KeccakHasher.update, KeccakHasher.finalize, List.append_assoc] using htake
  · simp [Create2Miner.compute_create2_address, KeccakHasher.v256,
      KeccakHasher.update, KeccakHasher.finalize, keccakHash_length]

/-- Witness for C1 at factory = 20 zero bytes, salt and init hash = 32 zero
bytes each. -/
theorem create2_address_formula_witness :
    (List.replicate 20 (0 : Nat)).length = 20
    ∧ (0xff :: (List.replicate 20 (0 : Nat) ++ List.replicate 32 0
        ++ List.replicate 32 0)).length = 85 :=
  ⟨by simp,
    (create2_address_formula (List.replicate 20 0) (List.replicate 32 0)
      (List.replicate 32 0) (by simp) (by simp) (by simp)).1⟩

/-! ## C2: counter-based candidate layout -/

/-- C2: for every 64-bit counter value `n`, the counter-based candidate is 32
bytes, its last 8 bytes (indices 24..32) are the big-endian encoding of `n`,
and its first 24 bytes are all zero. -/
theorem nonce_salt_layout (n : Nat) (h : n < 2 ^ 64) :
    (nonceSalt n).length = 32
    ∧ (nonceSalt n).take 24 = List.replicate 24 0
    ∧ (nonceSalt n).drop 24 = u64ToBeBytes n
    ∧ beBytesToNat (u64ToBeBytes n) = n := by
  have hrep : (List.replicate 32 (0 : Nat)).take 24 = List.replicate 24 0 := by
    simp [List.take_replicate]
  refine ⟨?_, ?_, ?_, ?_⟩
  · simp [nonceSalt, u64ToBeBytes]
  · rw [nonceSalt, hrep]
    exact List.take_left' (by simp)
  · rw [nonceSalt, hrep]
    exact List.drop_left' (by simp)
  · simp [beBytesToNat, u64ToBeBytes, List.foldl]
    omega

/-- Witness for C2 at counter value 5. -/
theorem nonce_salt_layout_witness :
    (5 : Nat) < 2 ^ 64 ∧ (nonceSalt 5).take 24 = List.replicate 24 0 :=
  ⟨by norm_num, (nonce_salt_layout 5 (by norm_num)).2.1⟩

/-! ## C3: worker partitioning in vanity-gen -/

/-- C3 (evidence that the code deviates from the stride partition): in
vanity-gen's scheme, worker `w` starts at `w * 1_000_000` and increments by 1.
With W = 2 workers, counter 1000000 is visited both by worker 0 (iteration
1000000) and by worker 1 (iteration 0) — duplication; and over iterations
k < 2 no worker visits counter 2 ∈ [0, 2·2) — coverage fails. -/
theorem vanity_gen_partition_bug :
    VanityGen.worker_counter 0 1000000 = VanityGen.worker_counter 1 0
    ∧ VanityGen.worker_counter 0 1000000 = 1000000
    ∧ (∀ w, w < 2 → ∀ k, k < 2 → VanityGen.worker_counter w k ≠ 2) :=
  ⟨by decide, by decide, by decide⟩

/-! ## C4: vanity-miner's byte-exact pattern matcher -/

/-- C4: vanity-miner's matcher for prefix 0x47 and suffix 0x0ea91e returns
true iff address[0] = 0x47, address[17] = 0x0e, address[18] = 0xa9 and
address[19] = 0x1e; overwriting any one of those four positions with a
different byte makes it return false. -/
theorem eagle_check_spec (a : List Nat) (ha : a.length = 20) :
    (VanityMiner.eagle_check a = true ↔
      (a.getD 0 0 = 0x47 ∧ a.getD 17 0 = 0x0e ∧ a.getD 18 0 = 0xa9
        ∧ a.getD 19 0 = 0x1e))
    ∧ (∀ v, v ≠ 0x47 → VanityMiner.eagle_check (a.set 0 v) = false)
    ∧ (∀ v, v ≠ 0x0e → VanityMiner.eagle_check (a.set 17 v) = false)
    ∧ (∀ v, v ≠ 0xa9 → VanityMiner.eagle_check (a.set 18 v) = false)
    ∧ (∀ v, v ≠ 0x1e → VanityMiner.eagle_check (a.set 19 v) = false) := by
  have hset : ∀ i v, i < 20 → (a.set i v).getD i 0 = v := by
    intro i v hi
    simp [List.getD_eq_getElem?_getD,
      List.getElem?_set_self (show i < a.length by omega)]
  refine ⟨?_, ?_, ?_, ?_, ?_⟩
  · simp [VanityMiner.eagle_check, and_assoc]
  · intro v hv
    simp [VanityMiner.eagle_check, -List.getD_eq_getElem?_getD,
      hset 0 v (by omega), hv]
  · intro v hv
    simp [VanityMiner.eagle_check, -List.getD_eq_getElem?_getD,
      hset 17 v (by omega), hv]
  · intro v hv
    simp [VanityMiner.eagle_check, -List.getD_eq_getElem?_getD,
      hset 18 v (by omega), hv]
  · intro v hv
    simp [VanityMiner.eagle_check, -List.getD_eq_getElem?_getD,
      hset 19 v (by omega), hv]

/-- Witness for C4: a matching address, with byte 0 overwritten by 100. -/
theorem eagle_check_spec_witness :
    (0x47 :: (List.replicate 16 (0 : Nat) ++ [0x0e, 0xa9, 0x1e])).length = 20
    ∧ VanityMiner.eagle_check
        ((0x47 :: (List.replicate 16 (0 : Nat) ++ [0x0e, 0xa9, 0x1e])).set 0 100)
        = false :=
  ⟨by decide, (eagle_check_spec _ (by decide)).2.1 100 (by decide)⟩

/-! ## C5: vanity-rust's nibble-aligned suffix check -/

/-- C5: vanity-rust's suffix check for the 5-nibble pattern 'ea91e' compares
only the low nibble of byte 17 and bytes 18 and 19 whole: it holds iff
(address[17] & 0x0f) = 0x0e, address[18] = 0xa9 and address[19] = 0x1e, and
replacing the high nibble of byte 17 by any other nibble leaves its result
unchanged. -/
theorem nibble_suffix_spec (a : List Nat) (ha : a.length = 20) :
    (VanityRust.suffix_check a = true ↔
      (a.getD 17 0 % 16 = 0x0e ∧ a.getD 18 0 = 0xa9 ∧ a.getD 19 0 = 0x1e))
    ∧ (∀ nib, nib < 16 →
        VanityRust.suffix_check (a.set 17 (16 * nib + a.getD 17 0 % 16))
          = VanityRust.suffix_check a) := by
  have hand : ∀ x : Nat, x &&& 15 = x % 16 := by
    intro x
    have h := Nat.and_pow_two_sub_one_eq_mod x 4
    norm_num at h
    exact h
  constructor
  · simp [VanityRust.suffix_check, hand, and_assoc]
  · intro nib hnib
    have h17 : (a.set 17 (16 * nib + a.getD 17 0 % 16)).getD 17 0
        = 16 * nib + a.getD 17 0 % 16 := by
      simp [List.getD_eq_getElem?_getD,
        List.getElem?_set_self (show 17 < a.length by omega)]
    have h18 : (a.set 17 (16 * nib + a.getD 17 0 % 16)).getD 18 0 = a.getD 18 0 := by
      simp [List.getD_eq_getElem?_getD,
        List.getElem?_set_ne (show (17 : Nat) ≠ 18 by omega)]
    have h19 : (a.set 17 (16 * nib + a.getD 17 0 % 16)).getD 19 0 = a.getD 19 0 := by
      simp [List.getD_eq_getElem?_getD,
        List.getElem?_set_ne (show (17 : Nat) ≠ 19 by omega)]
    have hmod : (16 * nib + a.getD 17 0 % 16) % 16 = a.getD 17 0 % 16 := by omega
    simp [VanityRust.suffix_check, -List.getD_eq_getElem?_getD, h17, h18, h19,
      hand, hmod]

/-- Witness for C5: the all-zero address, with nibble 3 written into the high
half of byte 17. -/
theorem nibble_suffix_spec_witness :
    (List.replicate 20 (0 : Nat)).length = 20
    ∧ VanityRust.suffix_check
        ((List.replicate 20 (0 : Nat)).set 17
          (16 * 3 + (List.replicate 20 (0 : Nat)).getD 17 0 % 16))
        = VanityRust.suffix_check (List.replicate 20 (0 : Nat)) :=
  ⟨by decide, (nibble_suffix_spec _ (by decide)).2 3 (by decide)⟩

/-! ## C6: the string-form matcher agrees with byte-exact comparison -/

theorem hexEncode_append (p q : List Nat) :
    hexEncode (p ++ q) = hexEncode p ++ hexEncode q := by
  induction p with
  | nil => simp [hexEncode]
  | cons b p ih => simp [hexEncode, ih]

theorem hexEncode_length (p : List Nat) : (hexEncode p).length = 2 * p.length := by
  induction p with
  | nil => simp [hexEncode]
  | cons b p ih => simp [hexEncode, ih]; omega

theorem hexDigit_injOn :
    ∀ a, a < 16 → ∀ b, b < 16 → hexDigit a = hexDigit b → a = b := by
  decide

theorem hexPair_inj (b c : Nat) (hb : b < 256) (hc : c < 256)
    (h1 : hexDigit (b / 16) = hexDigit (c / 16))
    (h2 : hexDigit (b % 16) = hexDigit (c % 16)) : b = c := by
  have e1 : b / 16 = c / 16 := hexDigit_injOn _ (by omega) _ (by omega) h1
  have e2 : b % 16 = c % 16 := hexDigit_injOn _ (by omega) _ (by omega) h2
  omega

theorem hexEncode_inj : ∀ p q : List Nat, (∀ b ∈ p, b < 256) → (∀ b ∈ q, b < 256) →
    hexEncode p = hexEncode q → p = q := by
  intro p
  induction p with
  | nil =>
    intro q _ _ h
    cases q with
    | nil => rfl
    | cons c q' => simp [hexEncode] at h
  | cons b p ih =>
    intro q hp hq h
    cases q with
    | nil => simp [hexEncode] at h
    | cons c q' =>
      simp only [hexEncode, List.cons.injEq] at h
      obtain ⟨h1, h2, h3⟩ := h
      have hbc : b = c :=
        hexPair_inj b c (hp b (by simp)) (hq c (by simp)) h1 h2
      have : p = q' :=
        ih q' (fun x hx => hp x (by simp [hx])) (fun x hx => hq x (by simp [hx])) h3
      simp [hbc, this]

theorem hexEncode_pfx_iff : ∀ p a : List Nat, (∀ b ∈ p, b < 256) →
    (∀ b ∈ a, b < 256) → (hexEncode p <+: hexEncode a ↔ p <+: a) := by
  intro p
  induction p with
  | nil => intro a _ _; simp [hexEncode]
  | cons b p ih =>
    intro a hp ha
    cases a with
    | nil =>
      simp [hexEncode, List.prefix_nil]
    | cons c a' =>
      simp only [hexEncode, List.cons_prefix_cons]
      constructor
      · rintro ⟨h1, h2, h3⟩
        have hbc : b = c :=
          hexPair_inj b c (hp b (by simp)) (ha c (by simp)) h1 h2
        refine ⟨hbc, ?_⟩
        exact (ih a' (fun x hx => hp x (by simp [hx]))
          (fun x hx => ha x (by simp [hx]))).mp h3
      · rintro ⟨h1, h2⟩
        subst h1
        refine ⟨rfl, rfl, ?_⟩
        exact (ih a' (fun x hx => hp x (by simp [hx]))
          (fun x hx => ha x (by simp [hx]))).mpr h2

theorem hexEncode_sfx_iff (s a : List Nat) (hs : ∀ b ∈ s, b < 256)
    (ha : ∀ b ∈ a, b < 256) : (hexEncode s <:+ hexEncode a ↔ s <:+ a) := by
  constructor
  · rintro ⟨t, ht⟩
    have hlen : s.length ≤ a.length := by
      have h := congrArg List.length ht
      simp [hexEncode_length] at h
      omega
    have htlen : t.length = 2 * a.length - 2 * s.length := by
      have h := congrArg List.length ht
      simp [hexEncode_length] at h
      omega
    have hEa : hexEncode a
        = hexEncode (a.take (a.length - s.length))
          ++ hexEncode (a.drop (a.length - s.length)) := by
      conv_lhs => rw [← List.take_append_drop (a.length - s.length) a]
      exact hexEncode_append _ _
    have hsplit : t ++ hexEncode s
        = hexEncode (a.take (a.length - s.length))
          ++ hexEncode (a.drop (a.length - s.length)) := ht.trans hEa
    have hv : hexEncode s = hexEncode (a.drop (a.length - s.length)) :=
      List.append_inj_right hsplit (by simp [hexEncode_length, htlen]; omega)
    have hsv : s = a.drop (a.length - s.length) :=
      hexEncode_inj s _ hs
        (fun x hx => ha x (List.mem_of_mem_drop hx)) hv
    rw [hsv]
    exact List.drop_suffix _ _
  · rintro ⟨t, ht⟩
    exact ⟨hexEncode t, by rw [← hexEncode_append, ht]⟩

theorem toLower_hexDigit : ∀ n, n < 16 → Char.toLower (hexDigit n) = hexDigit n := by
  decide

theorem toLower_hexEncode : ∀ p : List Nat, (∀ b ∈ p, b < 256) →
    toLowerStr (hexEncode p) = hexEncode p := by
  intro p
  induction p with
  | nil => intro _; simp [hexEncode, toLowerStr]
  | cons b p ih =>
    intro hp
    have hb : b < 256 := hp b (by simp)
    have h1 := toLower_hexDigit (b / 16) (by omega)
    have h2 := toLower_hexDigit (b % 16) (by omega)
    have ht := ih (fun x hx => hp x (by simp [hx]))
    simp [hexEncode, toLowerStr, h1, h2] at ht ⊢
    exact ht

/-- C6: for every 20-byte address and whole-byte patterns given as byte
strings, vanity-gen's string-form matcher (lowercase-hex encode the address,
`starts_with` the lowercased prefix string, `ends_with` the lowercased suffix
string) returns exactly the byte-exact comparison of the first `p.length`
bytes and the last `s.length` bytes of the address. -/
theorem string_form_matcher_agrees (a p s : List Nat) (ha : a.length = 20)
    (hab : ∀ b ∈ a, b < 256) (hpb : ∀ b ∈ p, b < 256) (hsb : ∀ b ∈ s, b < 256) :
    VanityGen.matches_pattern a (hexEncode p) (hexEncode s)
      = ((a.take p.length == p) && (a.drop (20 - s.length) == s)) := by
  rw [Bool.eq_iff_iff]
  simp only [VanityGen.matches_pattern, toLower_hexEncode p hpb,
    toLower_hexEncode s hsb, Bool.and_eq_true,
    List.isPrefixOf_iff_prefix, List.isSuffixOf_iff_suffix, beq_iff_eq]
  rw [hexEncode_pfx_iff p a hpb hab, hexEncode_sfx_iff s a hsb hab,
    List.prefix_iff_eq_take, List.suffix_iff_eq_drop, ha]
  constructor
  · rintro ⟨h1, h2⟩
    exact ⟨h1.symm, h2.symm⟩
  · rintro ⟨h1, h2⟩
    exact ⟨h1.symm, h2.symm⟩

/-- Witness for C6: the all-zero address with one-byte patterns 0x00 / 0x00. -/
theorem string_form_matcher_agrees_witness :
    (List.replicate 20 (0 : Nat)).length = 20
    ∧ VanityGen.matches_pattern (List.replicate 20 0) (hexEncode [0]) (hexEncode [0])
        = (((List.replicate 20 (0 : Nat)).take 1 == [0])
          && ((List.replicate 20 (0 : Nat)).drop (20 - 1) == [0])) :=
  ⟨by decide,
    by
      have h := string_form_matcher_agrees (List.replicate 20 0) [0] [0]
        (by decide) (by decide) (by decide) (by decide)
      simpa using h⟩

/-! ## C7: coordinator return contract -/

/-- C7 (amended): a coordinator returns `none` exactly when its own iteration
space is exhausted with no match, and returns a match otherwise.  For the
deterministic counter strategy (create2-miner) that space is the entire u64
keyspace; for the random-sampling strategy (vanity-rust) it is a bounded
budget of 10^9 sampled candidates, so that strategy can also return `none`
from its own iteration running out. -/
theorem coordinator_contract (rng : Nat → List Nat) :
    (Create2Miner.search = none ↔
      ∀ n, n < 2 ^ 64 → Create2Miner.try_nonce n = none)
    ∧ ((∃ n, n < 2 ^ 64 ∧ Create2Miner.try_nonce n ≠ none) →
        ∃ r, Create2Miner.search = some r)
    ∧ (VanityRust.search rng = none ↔
        ∀ i, i < 1000000000 → VanityRust.try_sample (rng i) = none) := by
  have h1 : Create2Miner.search = none ↔
      ∀ n, n < 2 ^ 64 → Create2Miner.try_nonce n = none := by
    rw [Create2Miner.search, find_map_any, findSome?_eq_none_forall]
    constructor
    · intro h n hn
      exact h n (List.mem_range.mpr hn)
    · intro h x hx
      exact h x (List.mem_range.mp hx)
  refine ⟨h1, ?_, ?_⟩
  · rintro ⟨n, hn, hne⟩
    rcases hopt : Create2Miner.search with _ | r
    · exact absurd (h1.mp hopt n hn) hne
    · exact ⟨r, rfl⟩
  · rw [VanityRust.search, find_map_any, findSome?_eq_none_forall]
    constructor
    · intro h i hi
      exact h i (List.mem_range.mpr hi)
    · intro h x hx
      exact h x (List.mem_range.mp hx)

/-- Witness for C7's amended contract, at the constant all-zero salt stream. -/
theorem coordinator_contract_witness :
    VanityRust.search (fun _ => List.replicate 32 0) = none ↔
      ∀ i, i < 1000000000 →
        VanityRust.try_sample ((fun _ => List.replicate 32 0) i) = none :=
  (coordinator_contract (fun _ => List.replicate 32 0)).2.2

/-- C7 counterexample to the original claim: a concrete run of vanity-rust's
random-sampling coordinator returns `none` from its own iteration running
out — the 10^9-iteration budget is exhausted (here under the constant
all-zero salt stream, whose derived address fails the pattern test). -/
theorem random_strategy_runs_out :
    VanityRust.search (fun _ => List.replicate 32 0) = none := by
  have hzero : VanityRust.try_sample (List.replicate 32 0) = none := by decide
  rw [VanityRust.search, find_map_any, findSome?_eq_none_forall]
  intro x _
  exact hzero

/-! ## C8: configuration-error detection -/

/-- C8 (amended): every error vanity-gen's run can raise comes from the config
-parsing phase, before the search ever starts, and its message names the
factory or the init code hash; whether the run aborts is independent of the
pattern arguments, because the prefix/suffix strings are never validated. -/
theorem config_errors_only_from_parse (fa ih ps ss : List Char) (fuel : Nat) :
    (∀ e, VanityGen.run fa ih ps ss fuel = .error e ↔
      VanityGen.parse_config fa ih = .error e)
    ∧ (∀ e, VanityGen.parse_config fa ih = .error e →
        e = "Invalid factory address" ∨ e = "Factory must be 20 bytes"
        ∨ e = "Invalid init code hash" ∨ e = "Init code hash must be 32 bytes")
    ∧ (∀ ps' ss', (VanityGen.run fa ih ps ss fuel).isOk
        = (VanityGen.run fa ih ps' ss' fuel).isOk) := by
  refine ⟨?_, ?_, ?_⟩
  · intro e
    cases hp : VanityGen.parse_config fa ih with
    | error e' => simp [VanityGen.run, hp]
    | ok cfg =>
      cases cfg with
      | mk f i => simp [VanityGen.run, hp]
  · intro e hp
    rw [VanityGen.parse_config] at hp
    repeat' split at hp
    any_goals exact (Except.noConfusion hp)
    all_goals injection hp with hmsg
    all_goals subst hmsg
    all_goals tauto
  · intro ps' ss'
    cases hp : VanityGen.parse_config fa ih with
    | error e => simp [VanityGen.run, hp]
    | ok cfg =>
      cases cfg with
      | mk f i => simp [VanityGen.run, hp, Except.isOk, Except.toBool]

/-- Witness for C8's amended claim: a malformed factory aborts with the
message naming the factory. -/
theorem config_errors_witness :
    VanityGen.run ("zz".data) [] [] [] 0 = .error "Invalid factory address" :=
  ((config_errors_only_from_parse ("zz".data) [] [] [] 0).1
      "Invalid factory address").mpr (by rfl)

/-- C8 counterexample to the original claim: with a valid factory and init
code hash but malformed (non-hex) pattern arguments "zz" and "qq", vanity-gen
raises no configuration error at all — parsing succeeds and the run reaches
the search phase (shown with a zero-iteration search budget). -/
theorem malformed_pattern_not_detected :
    VanityGen.run
      ("0x4e59b44847b379578588920cA78FbF26c0B4956C".data)
      ("0x636f1a2996f4afbbcdadd097a0e61ae05968fe76f6d1044e32e451a2e46303aa".data)
      ("zz".data) ("qq".data) 0
      = .ok none := by
  rfl

/-! ## C9: progress-reporter termination -/

/-- C9 (amended): the reporter loops of create2-miner, vanity-miner and
vanity-gen only read the shared state and stop within one sleep interval of
FoundFlag being observed true: if the flag reads true from iteration `t` on,
the loop is no longer running after iteration `t + 1`, and stays stopped. -/
theorem reporter_stops_after_found (found : Nat → Bool) (t : Nat)
    (h : ∀ i, t ≤ i → found i = true) :
    reporter_loop_running found (t + 1) = false
    ∧ ∀ k, t + 1 ≤ k → reporter_loop_running found k = false := by
  have hstop : reporter_loop_running found (t + 1) = false := by
    simp [reporter_loop_running, h t (Nat.le_refl t)]
  refine ⟨hstop, ?_⟩
  intro k hk
  induction k with
  | zero => omega
  | succ m ihm =>
    rcases Nat.lt_or_ge (t + 1) (m + 1) with hlt | hge
    · have hm := ihm (by omega)
      simp [reporter_loop_running, hm]
    · have hmt : m + 1 = t + 1 := by omega
      rw [hmt]
      exact hstop

/-- Witness for C9: the flag is true from the start; the loop has stopped
after one interval. -/
theorem reporter_stops_after_found_witness :
    reporter_loop_running (fun _ => true) 1 = false :=
  (reporter_stops_after_found (fun _ => true) 0 (fun _ _ => rfl)).1

/-- C9 counterexample to the original claim: the archived WLFI reporter never
reads FoundFlag — with the flag true from the very start, its loop is still
running after 5 sleep intervals. -/
theorem wlfi_reporter_never_stops :
    Wlfi.reporter_running (fun _ => true) 5 = true := by
  rfl

/-! ## C10: the WLFI specialized derivation refines the generic one -/

/-- C10: for every 64-bit salt value, the WLFI miner's specialized derivation
(which hashes 0xff, the factory, 24 zero bytes, the 8 big-endian salt bytes
and the init-code hash) returns the same address as the generic 32-byte-salt
derivation applied to the zero-extended big-endian candidate, at WLFI's
factory and init-code hash. -/
theorem wlfi_specialized_derivation_agrees (n : Nat) :
    Wlfi.compute_create2_address n
      = Create2Miner.compute_create2_address Wlfi.FACTORY (nonceSalt n)
          Wlfi.INIT_CODE_HASH := by
  have htake : ∀ m : List Nat,
      ((keccakHash m).drop 12).take 20 = (keccakHash m).drop 12 := by
    intro m
    exact List.take_of_length_le (by simp [keccakHash_length])
  have hmin : min 24 32 = 24 := by norm_num
  simp [Wlfi.compute_create2_address, Create2Miner.compute_create2_address,
    KeccakHasher.v256, KeccakHasher.update, KeccakHasher.finalize, nonceSalt,
    List.take_replicate, hmin, List.append_assoc, htake]
